import Mathlib

/-!
Shallow embedding of the filter-and-partition engine of the
excel-comparison-tool repository (src/excel_handler.py and
src/utils/validators.py).

Modelling conventions:
* Python strings are embedded as `List Char`; cell values are the strings
  produced by pandas `astype(str)`.
* A data frame is a `Table`: a list of column names plus a list of rows,
  each row an association list from column name to cell text.
* The regular-expression engine is abstracted as a compilation function
  `Cmp : List Char → Option (List Char → Bool)`; `none` models a pattern
  whose compilation raises (the `except` branch of `RegexFilter`).
* Fallible Python methods returning `(bool, result_or_message)` are
  embedded as `Except HandlerError α` paired with the post-state; the
  distinct error message classes of the source become the constructors of
  `HandlerError`.
-/

/-- Configuration keys read by the modelled code, with the defaults of
`DEFAULT_CONFIG` in src/config.py. -/
structure Config where
  max_filter_conditions : Nat := 50
  export_sheet_name_max_length : Nat := 31
  export_filename_max_length : Nat := 200
deriving Repr, DecidableEq

/-- The default configuration (`DEFAULT_CONFIG` of src/config.py). -/
def defaultConfig : Config := {}

/-- Python `str.lower()` on a character list (per-character lowering). -/
def toLowerL (s : List Char) : List Char := s.map Char.toLower

/-- Python `str.upper()` on a character list (per-character uppering). -/
def toUpperL (s : List Char) : List Char := s.map Char.toUpper

/-- Python `str.strip()`: remove leading and trailing whitespace. -/
def stripL (s : List Char) : List Char :=
  List.rdropWhile Char.isWhitespace (s.dropWhile Char.isWhitespace)

/-- Substring test on character lists (Python `needle in hay`). -/
def isSubstring (needle hay : List Char) : Bool :=
  (List.range (hay.length + 1)).any (fun i => needle.isPrefixOf (hay.drop i))

/-- Case-insensitive substring test: pandas
`str.contains(cond, na=False, case=False, regex=False)` on one cell. -/
def containsCI (needle hay : List Char) : Bool :=
  isSubstring (toLowerL needle) (toLowerL hay)

/-- `DataValidator.sanitize_sheet_name`: the characters replaced by
underscore. -/
def sheetInvalidChars : List Char := ['/', '\\', '?', '*', '[', ']', ':']

/-- `DataValidator.sanitize_filename`: the characters replaced by
underscore. -/
def filenameInvalidChars : List Char := ['/', '\\', ':', '*', '?', '"', '<', '>', '|']

/-- The sequence of `str.replace(char, "_")` calls of the sanitizers. -/
def replaceInvalid (invalid : List Char) (s : List Char) : List Char :=
  s.map (fun c => if invalid.contains c then '_' else c)

/-- The length-capping step of the sanitizers:
`if len(s) > max_length: s = s[:max_length-3] + "..."`. -/
def truncateEllipsis (maxLength : Nat) (s : List Char) : List Char :=
  if s.length > maxLength then s.take (maxLength - 3) ++ ['.', '.', '.'] else s

/-- `DataValidator.sanitize_sheet_name` (src/utils/validators.py). -/
def sanitize_sheet_name (cfg : Config) (name : List Char) : List Char :=
  if name.isEmpty then "Sheet1".toList
  else
    stripL (truncateEllipsis cfg.export_sheet_name_max_length
      (replaceInvalid sheetInvalidChars name))

/-- `DataValidator.sanitize_filename` (src/utils/validators.py). -/
def sanitize_filename (cfg : Config) (name : List Char) : List Char :=
  if name.isEmpty then "export".toList
  else
    stripL (truncateEllipsis cfg.export_filename_max_length
      (replaceInvalid filenameInvalidChars name))

/-- A row of a data frame: cell text (post `astype(str)`) per column name. -/
abbrev Row := List (String × List Char)

/-- A pandas data frame: column names plus rows. -/
structure Table where
  cols : List String
  rows : List Row
deriving Repr, DecidableEq

/-- The abstracted regular-expression engine: compiling a condition either
yields a case-insensitive per-cell search predicate or fails (`none`, the
exception case of `RegexFilter.apply_filter`). -/
abbrev Cmp := List Char → Option (List Char → Bool)

/-- The cell of `row` at column `col`, as pandas sees it when `col` is a
column of the frame (an absent cell reads as empty text). -/
def cellAt (row : Row) (col : String) : List Char :=
  (row.lookup col).getD []

/-- `ContainsFilter.apply_filter` at one row: fold over the selected
columns, OR-ing in a case-insensitive substring test for every selected
column present in the frame (`if col in df.columns`). -/
def containsFilterRow (dfCols : List String) (columns : List String)
    (condition : List Char) (row : Row) : Bool :=
  columns.foldl (fun acc col =>
    acc || (if dfCols.contains col then containsCI condition (cellAt row col)
            else false)) false

/-- `ExactMatchFilter.apply_filter` at one row: trimmed, lower-cased cell
text equal to the trimmed, lower-cased condition, in any selected column
present in the frame. -/
def exactFilterRow (dfCols : List String) (columns : List String)
    (condition : List Char) (row : Row) : Bool :=
  columns.foldl (fun acc col =>
    acc || (if dfCols.contains col then
              decide (toLowerL (stripL (cellAt row col)) = toLowerL (stripL condition))
            else false)) false

/-- `RegexFilter.apply_filter` at one row: per selected column present in
the frame, use the compiled pattern when compilation succeeds, else fall
back to the plain case-insensitive substring test (the `except` branch). -/
def regexFilterRow (cmp : Cmp) (dfCols : List String) (columns : List String)
    (condition : List Char) (row : Row) : Bool :=
  columns.foldl (fun acc col =>
    acc || (if dfCols.contains col then
              match cmp condition with
              | some f => f (cellAt row col)
              | none => containsCI condition (cellAt row col)
            else false)) false

/-- The keys of `ExcelHandler.filter_strategies`. -/
def strategyNames : List String := ["contains", "exact", "regex"]

/-- The `filter_strategies` dictionary: name to per-row filter, `none` for
a key not in the dictionary (a lookup there raises `KeyError`). -/
def lookupStrategy (cmp : Cmp) (name : String) :
    Option (List String → List String → List Char → Row → Bool) :=
  if name = "contains" then some containsFilterRow
  else if name = "exact" then some exactFilterRow
  else if name = "regex" then some (regexFilterRow cmp)
  else none

/-- The error message classes produced by the modelled methods. -/
inductive HandlerError where
  | noData            -- "没有加载数据"
  | emptyColumns      -- validate_column_selection: "必须至少选择一列"
  | unknownColumns    -- validate_column_selection: "选择的列不存在"
  | invalidFilterText -- validate_filter_text: "筛选条件不能为空"
  | filterTextTooLong -- validate_filter_text: "筛选条件过长"
  | emptyResult       -- "没有找到匹配/满足筛选条件的数据"
  | noConditions      -- "未提供筛选条件"
  | tooManyConditions -- "筛选条件过多"
  | keyError          -- except KeyError: "列名错误"
deriving Repr, DecidableEq

/-- The errors the spec's taxonomy classes as `InvalidInputError`
(bad or missing arguments). -/
def HandlerError.isInvalidInput : HandlerError → Bool
  | .emptyColumns | .unknownColumns | .invalidFilterText
  | .filterTextTooLong | .noConditions | .tooManyConditions => true
  | _ => false

/-- `DataValidator.validate_column_selection` (src/utils/validators.py),
with the two failure messages as tagged errors. -/
def validate_column_selection (columns available : List String) :
    Option HandlerError :=
  if columns.isEmpty then some .emptyColumns
  else if columns.any (fun c => !available.contains c) then some .unknownColumns
  else none

/-- `DataValidator.validate_filter_text` (src/utils/validators.py). -/
def validate_filter_text (filter_text : List Char) : Option HandlerError :=
  if filter_text.isEmpty || (stripL filter_text).isEmpty then some .invalidFilterText
  else if filter_text.length > 1000 then some .filterTextTooLong
  else none

/-- The mutable state of an `ExcelHandler` after a successful load
(loading itself is I/O and is outside the model). -/
structure Handler where
  excel_file_path : Option String
  original_dataframe : Option Table
  dataframe : Option Table
  filtered_sheets : List (List Char × Table)
  current_filter_strategy : String
deriving Repr, DecidableEq

/-- `ExcelHandler.get_column_names`. -/
def get_column_names (h : Handler) : List String :=
  match h.dataframe with
  | some df => df.cols
  | none => []

/-- `ExcelHandler.set_filter_strategy`. -/
def set_filter_strategy (h : Handler) (strategy : String) : Bool × Handler :=
  if strategyNames.contains strategy then
    (true, { h with current_filter_strategy := strategy })
  else (false, h)

/-- Python dict assignment `sheets[k] = v`: replace in place when the key
exists (insertion order keeps the original position), else append. -/
def updateSheet (sheets : List (List Char × Table)) (k : List Char) (v : Table) :
    List (List Char × Table) :=
  if sheets.any (fun p => p.1 = k) then
    sheets.map (fun p => if p.1 = k then (k, v) else p)
  else sheets ++ [(k, v)]

/-- The strategy name `filter_data` resolves:
`strategy or self.current_filter_strategy`, replaced by `'contains'` when
not a key of `filter_strategies`. An empty strategy string is falsy in
Python, so it falls back to the current strategy. -/
def chooseStrategyName (h : Handler) (strategy : Option String) : String :=
  let fs0 := match strategy with
    | some s => if s = "" then h.current_filter_strategy else s
    | none => h.current_filter_strategy
  if strategyNames.contains fs0 then fs0 else "contains"

/-- `ExcelHandler.filter_data` (src/excel_handler.py): validate, build the
mask with the resolved strategy, fail on an empty selection, otherwise
store the selection under the sanitized condition text and drop it from
the pool. -/
def filter_data (cmp : Cmp) (cfg : Config) (h : Handler)
    (selected_columns : List String) (filter_value : List Char)
    (strategy : Option String) : Except HandlerError Table × Handler :=
  match h.dataframe with
  | none => (.error .noData, h)
  | some df =>
    match validate_column_selection selected_columns (get_column_names h) with
    | some e => (.error e, h)
    | none =>
      match validate_filter_text filter_value with
      | some e => (.error e, h)
      | none =>
        match lookupStrategy cmp (chooseStrategyName h strategy) with
        | none => (.error .keyError, h)
        | some f =>
          let pred := fun row => f df.cols selected_columns filter_value row
          let filtered : Table := { cols := df.cols, rows := df.rows.filter pred }
          if filtered.rows.isEmpty then (.error .emptyResult, h)
          else
            let sheet_name := sanitize_sheet_name cfg filter_value
            (.ok filtered,
             { h with
               filtered_sheets := updateSheet h.filtered_sheets sheet_name filtered,
               dataframe := some { cols := df.cols,
                                   rows := df.rows.filter (fun r => !pred r) } })

/-- The combined per-row mask of `filter_data_batch`: fold from all-true
by AND when the upper-cased operator is `AND`, else fold from all-false
by OR. -/
def batchRowPred (mf : List Char → Row → Bool) (logic_operator : List Char)
    (filter_values : List (List Char)) (row : Row) : Bool :=
  if toUpperL logic_operator = "AND".toList then
    filter_values.foldl (fun acc v => acc && mf v row) true
  else
    filter_values.foldl (fun acc v => acc || mf v row) false

/-- The provenance name of a batch extraction: conditions joined with
`" 与 "` for AND, `" 或 "` for any other operator. -/
def batchConditionName (logic_operator : List Char)
    (filter_values : List (List Char)) : List Char :=
  if toUpperL logic_operator = "AND".toList then
    List.intercalate " 与 ".toList filter_values
  else
    List.intercalate " 或 ".toList filter_values

/-- `ExcelHandler.filter_data_batch` (src/excel_handler.py). -/
def filter_data_batch (cmp : Cmp) (cfg : Config) (h : Handler)
    (selected_columns : List String) (filter_values : List (List Char))
    (logic_operator : List Char) :
    Except HandlerError (List Char × Table) × Handler :=
  match h.dataframe with
  | none => (.error .noData, h)
  | some df =>
    match validate_column_selection selected_columns (get_column_names h) with
    | some e => (.error e, h)
    | none =>
      if filter_values.isEmpty then (.error .noConditions, h)
      else if filter_values.length > cfg.max_filter_conditions then
        (.error .tooManyConditions, h)
      else
        match lookupStrategy cmp h.current_filter_strategy with
        | none => (.error .keyError, h)
        | some f =>
          let pred := batchRowPred (fun v row => f df.cols selected_columns v row)
            logic_operator filter_values
          let filtered : Table := { cols := df.cols, rows := df.rows.filter pred }
          if filtered.rows.isEmpty then (.error .emptyResult, h)
          else
            let sheet_name := sanitize_sheet_name cfg
              (batchConditionName logic_operator filter_values)
            (.ok (sheet_name, filtered),
             { h with
               filtered_sheets := updateSheet h.filtered_sheets sheet_name filtered,
               dataframe := some { cols := df.cols,
                                   rows := df.rows.filter (fun r => !pred r) } })

/-- The summary dictionary of `ExcelHandler.get_data_summary`. -/
structure Summary where
  original_rows : Nat
  current_rows : Nat
  filtered_sheets_count : Nat
  total_filtered_rows : Nat
  columns : List String
  file_path : Option String
deriving Repr, DecidableEq

/-- `ExcelHandler.get_data_summary`. -/
def get_data_summary (h : Handler) : Summary :=
  { original_rows := match h.original_dataframe with
      | some df => df.rows.length
      | none => 0
    current_rows := match h.dataframe with
      | some df => df.rows.length
      | none => 0
    filtered_sheets_count := h.filtered_sheets.length
    total_filtered_rows := (h.filtered_sheets.map (fun p => p.2.rows.length)).sum
    columns := get_column_names h
    file_path := h.excel_file_path }

/-- `ExcelHandler.reset_data`: restore the pool from the original snapshot
and clear all partitions. -/
def reset_data (h : Handler) : Bool × Handler :=
  match h.original_dataframe with
  | some odf =>
    (true, { h with dataframe := some odf, filtered_sheets := [] })
  | none => (false, h)

/-- Python `s.split(sep)` for a non-empty separator, fuelled so the kernel
can evaluate it (`fuel = length s` always suffices: each step consumes at
least one character). -/
def splitOnSepGo (sep : List Char) : Nat → List Char → List Char → List (List Char)
  | _, acc, [] => [acc.reverse]
  | 0, acc, l => [acc.reverse ++ l]
  | fuel + 1, acc, c :: rest =>
    if sep ≠ [] ∧ sep.isPrefixOf (c :: rest) then
      acc.reverse :: splitOnSepGo sep fuel [] ((c :: rest).drop sep.length)
    else
      splitOnSepGo sep fuel (acc.concat c) rest

/-- Python `s.split(sep)`. -/
def splitOnSep (sep s : List Char) : List (List Char) :=
  splitOnSepGo sep s.length [] s

/-- The connectors undone by export-name generation, in source order. -/
def exportSeparators : List (List Char) :=
  [" 与 ".toList, " 或 ".toList, " AND ".toList, " OR ".toList]

/-- The inner loop of `_generate_export_filename`: split a partition name
on every connector in turn (`if sep in cond: extend(cond.split(sep))
else: append(cond)`). -/
def splitConditions (sheet_name : List Char) : List (List Char) :=
  exportSeparators.foldl (fun conditions sep =>
    conditions.foldl (fun acc cond =>
      acc ++ (if isSubstring sep cond then splitOnSep sep cond else [cond])) [])
    [sheet_name]

/-- `list(dict.fromkeys(l))`: deduplicate keeping first-seen order. -/
def uniqueKeepFirst (l : List (List Char)) : List (List Char) :=
  l.foldl (fun acc x => if acc.contains x then acc else acc ++ [x]) []

/-- `ExcelHandler._generate_export_filename` (src/excel_handler.py), with
the timestamp passed in (its computation from the clock is I/O). -/
def generate_export_filename (cfg : Config) (h : Handler)
    (timestamp : List Char) : List Char :=
  let all_conditions :=
    h.filtered_sheets.foldl (fun acc p => acc ++ splitConditions p.1) []
  let unique_conditions := uniqueKeepFirst all_conditions
  let conditions_str0 :=
    if unique_conditions.length > 3 then
      List.intercalate ['+'] (unique_conditions.take 3) ++ "等".toList
    else List.intercalate ['+'] unique_conditions
  let conditions_str1 := sanitize_filename cfg conditions_str0
  let max_length := cfg.export_filename_max_length - timestamp.length - 7
  let conditions_str :=
    if conditions_str1.length > max_length then
      conditions_str1.take (max_length - 3) ++ ['.', '.', '.']
    else conditions_str1
  conditions_str ++ ['_'] ++ timestamp ++ ".xlsx".toList

deriving instance DecidableEq for Except

/-- `InvalidInputError` classification of a whole call result. -/
def resultInvalidInput : Except HandlerError α → Bool
  | .error e => e.isInvalidInput
  | .ok _ => false

/-- The exclusivity invariant of the spec: rows in the pool plus rows
across all stored partitions account for every originally imported row. -/
def rowInvariant (h : Handler) : Prop :=
  (get_data_summary h).current_rows + (get_data_summary h).total_filtered_rows =
    (get_data_summary h).original_rows

/-- A regex engine that fails to compile every pattern; used where the
concrete behaviour under test never reaches the regex strategy or
exercises exactly the compilation-failure path. -/
def cmpNone : Cmp := fun _ => none

/-- Two-row fixture whose two cell values both sanitize to the sheet name
`b_`. -/
def tPair : Table :=
  { cols := ["c"], rows := [[("c", "b/1".toList)], [("c", "b\\2".toList)]] }

/-- Handler state right after loading `tPair`. -/
def hPair : Handler :=
  { excel_file_path := some "data.xlsx"
    original_dataframe := some tPair
    dataframe := some tPair
    filtered_sheets := []
    current_filter_strategy := "contains" }

/-- The five-row `Department` fixture of the spec's end-to-end scenario. -/
def tDept : Table :=
  { cols := ["Department"]
    rows := [[("Department", "IT".toList)], [("Department", "HR".toList)],
             [("Department", "IT".toList)], [("Department", "Finance".toList)],
             [("Department", "IT".toList)]] }

/-- Handler state right after loading `tDept`. -/
def hDept : Handler :=
  { excel_file_path := some "data.xlsx"
    original_dataframe := some tDept
    dataframe := some tDept
    filtered_sheets := []
    current_filter_strategy := "contains" }

/-- State after extracting `b/` from `hPair` (partition stored as `b_`). -/
def hPairMid : Handler :=
  (filter_data cmpNone defaultConfig hPair ["c"] "b/".toList none).2

/-- State after then extracting `b\` (overwrites the `b_` partition). -/
def hPairEnd : Handler :=
  (filter_data cmpNone defaultConfig hPairMid ["c"] "b\\".toList none).2

/-- Export-generation fixture: an AND-joined and an OR-joined partition. -/
def hExport : Handler :=
  { excel_file_path := some "data.xlsx"
    original_dataframe := some tDept
    dataframe := some tDept
    filtered_sheets :=
      [("A 与 B".toList, { cols := ["Department"], rows := [[("Department", "IT".toList)]] }),
       ("C 或 D".toList, { cols := ["Department"], rows := [[("Department", "HR".toList)]] })]
    current_filter_strategy := "contains" }

/-- Fixture where the substring and exact strategies select different
rows for the condition `alice`. -/
def tAlice : Table :=
  { cols := ["c"], rows := [[("c", "alicex".toList)], [("c", "alice".toList)]] }

/-- Handler over `tAlice` whose current strategy is `exact`. -/
def hAlice : Handler :=
  { excel_file_path := some "data.xlsx"
    original_dataframe := some tAlice
    dataframe := some tAlice
    filtered_sheets := []
    current_filter_strategy := "exact" }

/-- Fixture with a cell containing a space, so the whitespace-only batch
condition `" "` matches a row. -/
def tSpace : Table :=
  { cols := ["c"], rows := [[("c", "a b".toList)]] }

/-- Handler state right after loading `tSpace`. -/
def hSpace : Handler :=
  { excel_file_path := some "data.xlsx"
    original_dataframe := some tSpace
    dataframe := some tSpace
    filtered_sheets := []
    current_filter_strategy := "contains" }

/-! ### Helper lemmas -/

theorem dropWhile_prefix_fixed {p : Char → Bool} {s r : List Char}
    (h : List.IsPrefix r (s.dropWhile p)) : r.dropWhile p = r := by
  cases r with
  | nil => rfl
  | cons a t =>
    obtain ⟨w, hw⟩ := h
    have hpa : p a = false := by
      by_contra hpa
      rw [Bool.not_eq_false] at hpa
      have hidem := List.dropWhile_idempotent p s
      rw [← hw, List.cons_append, List.dropWhile_cons, if_pos hpa] at hidem
      have hlen := congrArg List.length hidem
      have hle := (List.dropWhile_suffix (l := t ++ w) p).sublist.length_le
      simp only [List.length_append, List.length_cons] at hlen hle
      omega
    simp [List.dropWhile_cons, hpa]

theorem stripL_idem (s : List Char) : stripL (stripL s) = stripL s := by
  unfold stripL
  rw [dropWhile_prefix_fixed
      (List.rdropWhile_prefix Char.isWhitespace (s.dropWhile Char.isWhitespace)),
    List.rdropWhile_idempotent]

theorem stripL_sublist (s : List Char) : List.Sublist (stripL s) s :=
  ((List.rdropWhile_prefix _ _).sublist).trans (List.dropWhile_suffix _).sublist

theorem stripL_length_le (s : List Char) : (stripL s).length ≤ s.length :=
  (stripL_sublist s).length_le

theorem mem_of_mem_stripL {c : Char} {s : List Char} (h : c ∈ stripL s) : c ∈ s :=
  (stripL_sublist s).mem h

theorem stripL_eq_nil_of_all_ws {s : List Char}
    (h : ∀ c ∈ s, c.isWhitespace = true) : stripL s = [] := by
  unfold stripL
  rw [List.dropWhile_eq_nil_iff.mpr h]
  rfl

theorem replaceInvalid_not_invalid {inv : List Char}
    (hu : inv.contains '_' = false) {s : List Char} :
    ∀ c ∈ replaceInvalid inv s, inv.contains c = false := by
  intro c hc
  unfold replaceInvalid at hc
  obtain ⟨a, _, ha⟩ := List.mem_map.mp hc
  by_cases hinv : inv.contains a
  · rw [if_pos hinv] at ha; rw [← ha]; exact hu
  · rw [if_neg hinv] at ha; rw [← ha]; exact Bool.not_eq_true _ |>.mp hinv

theorem replaceInvalid_eq_self {inv s : List Char}
    (h : ∀ c ∈ s, inv.contains c = false) : replaceInvalid inv s = s := by
  unfold replaceInvalid
  induction s with
  | nil => rfl
  | cons a t ih =>
    have ha : inv.contains a = false := h a (List.mem_cons_self a t)
    rw [List.map_cons, ha]
    simp only [Bool.false_eq_true, if_false, List.cons.injEq, true_and]
    exact ih fun c hc => h c (List.mem_cons_of_mem a hc)

theorem mem_truncateEllipsis {c : Char} {m : Nat} {s : List Char}
    (h : c ∈ truncateEllipsis m s) : c ∈ s ∨ c = '.' := by
  unfold truncateEllipsis at h
  by_cases hl : s.length > m
  · rw [if_pos hl] at h
    rcases List.mem_append.mp h with h' | h'
    · exact Or.inl (List.mem_of_mem_take h')
    · right
      simp only [List.mem_cons, List.not_mem_nil, or_false] at h'
      rcases h' with h' | h' | h' <;> exact h'
  · rw [if_neg hl] at h; exact Or.inl h

theorem truncateEllipsis_eq_self {m : Nat} {s : List Char}
    (h : s.length ≤ m) : truncateEllipsis m s = s := by
  unfold truncateEllipsis
  rw [if_neg (by omega)]

theorem truncateEllipsis_length_le {m : Nat} (h3 : 3 ≤ m) (s : List Char) :
    (truncateEllipsis m s).length ≤ m := by
  unfold truncateEllipsis
  by_cases hl : s.length > m
  · rw [if_pos hl]
    have : (s.take (m - 3)).length ≤ m - 3 := by
      simp [List.length_take]
    simp only [List.length_append, List.length_cons, List.length_nil]
    omega
  · rw [if_neg hl]; omega

theorem length_filter_add_length_filter_not (p : α → Bool) (l : List α) :
    (l.filter p).length + (l.filter (fun a => !p a)).length = l.length := by
  induction l with
  | nil => rfl
  | cons a t ih =>
    by_cases h : p a <;>
      simp only [List.filter_cons, h, Bool.not_true, Bool.not_false, if_pos, if_neg,
        Bool.false_eq_true, Bool.true_eq_false, List.length_cons, ite_true, ite_false] <;>
      omega

theorem updateSheet_of_fresh {sheets : List (List Char × Table)} {k : List Char}
    (v : Table) (hf : ∀ q ∈ sheets, q.1 ≠ k) :
    updateSheet sheets k v = sheets ++ [(k, v)] := by
  unfold updateSheet
  rw [if_neg]
  simp only [List.any_eq_true, decide_eq_true_eq, not_exists, not_and]
  exact fun q hq => hf q hq

theorem foldl_and_eq_all (l : List α) (p : α → Bool) (b : Bool) :
    l.foldl (fun acc v => acc && p v) b = (b && l.all p) := by
  induction l generalizing b with
  | nil => simp
  | cons a t ih => simp [List.foldl_cons, ih, Bool.and_assoc]

theorem foldl_or_eq_any (l : List α) (p : α → Bool) (b : Bool) :
    l.foldl (fun acc v => acc || p v) b = (b || l.any p) := by
  induction l generalizing b with
  | nil => simp
  | cons a t ih => simp [List.foldl_cons, ih, Bool.or_assoc]

theorem batchRowPred_eq (mf : List Char → Row → Bool) (op : List Char)
    (vals : List (List Char)) (row : Row) :
    batchRowPred mf op vals row =
      if toUpperL op = "AND".toList then vals.all (fun v => mf v row)
      else vals.any (fun v => mf v row) := by
  unfold batchRowPred
  split <;> simp [foldl_and_eq_all, foldl_or_eq_any]

theorem ws_not_invalid (c : Char) (hws : c.isWhitespace = true) :
    sheetInvalidChars.contains c = false ∧ filenameInvalidChars.contains c = false := by
  constructor <;> by_contra hc <;> rw [Bool.not_eq_false, List.contains_eq_any_beq] at hc <;>
    simp only [List.any_eq_true, beq_iff_eq] at hc <;>
    obtain ⟨d, hd, hdc⟩ := hc <;> subst hdc <;>
    [skip; skip] <;> first
  | (fin_cases hd <;> exact absurd hws (by decide))

/-- Both sanitizers share one core; its idempotence on a nonempty result. -/
theorem sanitizeCore_idem (inv : List Char) (m : Nat) (s : List Char)
    (hu : inv.contains '_' = false) (hd : inv.contains '.' = false) (h3 : 3 ≤ m) :
    stripL (truncateEllipsis m (replaceInvalid inv
      (stripL (truncateEllipsis m (replaceInvalid inv s))))) =
    stripL (truncateEllipsis m (replaceInvalid inv s)) := by
  have hnoinv : ∀ c ∈ stripL (truncateEllipsis m (replaceInvalid inv s)),
      inv.contains c = false := by
    intro c hc
    rcases mem_truncateEllipsis (mem_of_mem_stripL hc) with h | h
    · exact replaceInvalid_not_invalid hu c h
    · subst h; exact hd
  have hlen : (stripL (truncateEllipsis m (replaceInvalid inv s))).length ≤ m :=
    le_trans (stripL_length_le _) (truncateEllipsis_length_le h3 _)
  rw [replaceInvalid_eq_self hnoinv, truncateEllipsis_eq_self hlen, stripL_idem]

/-! ### Claim theorems -/

/-- C4: for every table, column selection and condition whose pattern
fails to compile, the pattern (regex) strategy produces exactly the same
row mask as the substring (contains) strategy on the same inputs (and, in
this total embedding of the `try/except` fallback, raises no error). -/
theorem C4_invalid_regex_equals_contains (cmp : Cmp) (t : Table)
    (columns : List String) (condition : List Char)
    (hinv : cmp condition = none) :
    t.rows.map (regexFilterRow cmp t.cols columns condition) =
      t.rows.map (containsFilterRow t.cols columns condition) := by
  have hrow : regexFilterRow cmp t.cols columns condition =
      containsFilterRow t.cols columns condition := by
    funext row
    unfold regexFilterRow containsFilterRow
    simp only [hinv]
  rw [hrow]

/-- C4 witness: the invalid pattern `(IT` over the Department fixture. -/
theorem C4_invalid_regex_equals_contains_witness :
    tDept.rows.map (regexFilterRow cmpNone tDept.cols ["Department"] "(IT".toList) =
      tDept.rows.map (containsFilterRow tDept.cols ["Department"] "(IT".toList) :=
  C4_invalid_regex_equals_contains cmpNone tDept ["Department"] "(IT".toList rfl

/-- C5 counterexample: on the single-space input both sanitizers return
the empty string, whose re-sanitization is the fallback name, so
`sanitize (sanitize x) = sanitize x` fails at `x = " "`. -/
theorem C5_idempotence_counterexample :
    (sanitize_sheet_name defaultConfig (sanitize_sheet_name defaultConfig [' ']) ≠
      sanitize_sheet_name defaultConfig [' ']) ∧
    (sanitize_filename defaultConfig (sanitize_filename defaultConfig [' ']) ≠
      sanitize_filename defaultConfig [' ']) := by decide

/-- C5 (amended): both sanitizers are idempotent on every input whose
sanitized result is nonempty (the configured maximums must accommodate
the fixed fallback names, as the defaults 31 and 200 do); the exception
is nonempty all-whitespace input, where the result is empty and
re-sanitizing yields the fallback instead. -/
theorem C5_sanitize_idempotent_on_nonempty (cfg : Config) (s : List Char)
    (hsheet : 6 ≤ cfg.export_sheet_name_max_length)
    (hfile : 6 ≤ cfg.export_filename_max_length) :
    (sanitize_sheet_name cfg s ≠ [] →
      sanitize_sheet_name cfg (sanitize_sheet_name cfg s) = sanitize_sheet_name cfg s) ∧
    (sanitize_filename cfg s ≠ [] →
      sanitize_filename cfg (sanitize_filename cfg s) = sanitize_filename cfg s) := by
  constructor
  · intro hne
    by_cases hs : s.isEmpty = true
    · have h1 : sanitize_sheet_name cfg s = "Sheet1".toList := by
        unfold sanitize_sheet_name; rw [if_pos hs]
      rw [h1]
      unfold sanitize_sheet_name
      rw [if_neg (by decide), replaceInvalid_eq_self (by decide),
        truncateEllipsis_eq_self hsheet]
      decide
    · have h1 : sanitize_sheet_name cfg s =
          stripL (truncateEllipsis cfg.export_sheet_name_max_length
            (replaceInvalid sheetInvalidChars s)) := by
        unfold sanitize_sheet_name; rw [if_neg hs]
      rw [h1] at hne ⊢
      unfold sanitize_sheet_name
      rw [if_neg (fun hh => hne (List.isEmpty_iff.mp hh))]
      exact sanitizeCore_idem sheetInvalidChars _ s (by decide) (by decide)
        (le_trans (by decide) hsheet)
  · intro hne
    by_cases hs : s.isEmpty = true
    · have h1 : sanitize_filename cfg s = "export".toList := by
        unfold sanitize_filename; rw [if_pos hs]
      rw [h1]
      unfold sanitize_filename
      rw [if_neg (by decide), replaceInvalid_eq_self (by decide),
        truncateEllipsis_eq_self hfile]
      decide
    · have h1 : sanitize_filename cfg s =
          stripL (truncateEllipsis cfg.export_filename_max_length
            (replaceInvalid filenameInvalidChars s)) := by
        unfold sanitize_filename; rw [if_neg hs]
      rw [h1] at hne ⊢
      unfold sanitize_filename
      rw [if_neg (fun hh => hne (List.isEmpty_iff.mp hh))]
      exact sanitizeCore_idem filenameInvalidChars _ s (by decide) (by decide)
        (le_trans (by decide) hfile)

/-- C5 witness: idempotence instantiated at `"ab/c"`. -/
theorem C5_sanitize_idempotent_witness :
    sanitize_sheet_name defaultConfig
        (sanitize_sheet_name defaultConfig "ab/c".toList) =
      sanitize_sheet_name defaultConfig "ab/c".toList :=
  (C5_sanitize_idempotent_on_nonempty defaultConfig "ab/c".toList
    (by decide) (by decide)).1 (by decide)

/-- C6 counterexample: the two-space input is whitespace-only yet neither
sanitizer returns its fallback; both return the empty string. -/
theorem C6_whitespace_fallback_counterexample :
    sanitize_sheet_name defaultConfig "  ".toList = [] ∧
    sanitize_sheet_name defaultConfig "  ".toList ≠ "Sheet1".toList ∧
    sanitize_filename defaultConfig "  ".toList = [] ∧
    sanitize_filename defaultConfig "  ".toList ≠ "export".toList := by decide

/-- C6 (amended): only the genuinely empty input maps to the fixed
fallback (`Sheet1` / `export`); a nonempty all-whitespace input short
enough not to be truncated is stripped to the empty string, so the
sanitizers can return empty output. -/
theorem C6_fallback_and_whitespace_empty (cfg : Config) (s : List Char) :
    sanitize_sheet_name cfg [] = "Sheet1".toList ∧
    sanitize_filename cfg [] = "export".toList ∧
    (s ≠ [] → (∀ c ∈ s, c.isWhitespace = true) →
      s.length ≤ cfg.export_sheet_name_max_length →
      sanitize_sheet_name cfg s = []) ∧
    (s ≠ [] → (∀ c ∈ s, c.isWhitespace = true) →
      s.length ≤ cfg.export_filename_max_length →
      sanitize_filename cfg s = []) := by
  refine ⟨rfl, rfl, ?_, ?_⟩
  · intro hne hws hlen
    unfold sanitize_sheet_name
    rw [if_neg (fun hh => hne (List.isEmpty_iff.mp hh)),
      replaceInvalid_eq_self (fun c hc => (ws_not_invalid c (hws c hc)).1),
      truncateEllipsis_eq_self hlen]
    exact stripL_eq_nil_of_all_ws hws
  · intro hne hws hlen
    unfold sanitize_filename
    rw [if_neg (fun hh => hne (List.isEmpty_iff.mp hh)),
      replaceInvalid_eq_self (fun c hc => (ws_not_invalid c (hws c hc)).2),
      truncateEllipsis_eq_self hlen]
    exact stripL_eq_nil_of_all_ws hws

/-- C6 witness: the tab character is nonempty whitespace-only input and
both sanitizers map it to the empty string. -/
theorem C6_fallback_and_whitespace_empty_witness :
    sanitize_sheet_name defaultConfig ['\t'] = [] ∧
    sanitize_filename defaultConfig ['\t'] = [] :=
  ⟨(C6_fallback_and_whitespace_empty defaultConfig ['\t']).2.2.1
      (by decide) (by decide) (by decide),
   (C6_fallback_and_whitespace_empty defaultConfig ['\t']).2.2.2
      (by decide) (by decide) (by decide)⟩

/-- C9: auto-generated export names: the partition names `A 与 B` (AND
join) and `C 或 D` (OR join) decompose into the four atomic tokens
`A, B, C, D` in first-seen order, and the generated filename joins the
first three with `+`, appends the and-more marker `等`, then the
timestamp and extension. -/
theorem C9_export_filename_generation :
    uniqueKeepFirst (hExport.filtered_sheets.foldl
        (fun acc p => acc ++ splitConditions p.1) []) =
      ["A".toList, "B".toList, "C".toList, "D".toList] ∧
    generate_export_filename defaultConfig hExport "20240101_120000".toList =
      "A+B+C等_20240101_120000.xlsx".toList := by decide

theorem filter_data_strategy_congr (cmp : Cmp) (cfg : Config) (h : Handler)
    (cols : List String) (v : List Char) {s1 s2 : Option String}
    (hch : chooseStrategyName h s1 = chooseStrategyName h s2) :
    filter_data cmp cfg h cols v s1 = filter_data cmp cfg h cols v s2 := by
  simp only [filter_data, hch]

theorem filter_data_preserves_strategy (cmp : Cmp) (cfg : Config) (h : Handler)
    (cols : List String) (v : List Char) (strat : Option String) :
    (filter_data cmp cfg h cols v strat).2.current_filter_strategy =
      h.current_filter_strategy := by
  unfold filter_data
  split
  · rfl
  · split
    · rfl
    · split
      · rfl
      · split
        · rfl
        · dsimp only
          split
          · rfl
          · rfl

/-- C10 counterexample: the empty string is not one of the three strategy
names, yet `filter_data` given strategy `""` (falsy in Python) computes
the mask with the handler's current strategy (here `exact`), not with
`contains`: the two calls leave different pools behind. -/
theorem C10_empty_strategy_counterexample :
    strategyNames.contains "" = false ∧
    (filter_data cmpNone defaultConfig hAlice ["c"] "alice".toList
        (some "")).2.dataframe ≠
      (filter_data cmpNone defaultConfig hAlice ["c"] "alice".toList
        (some "contains")).2.dataframe := by decide

/-- C10 (amended): for every non-empty strategy string that is not one of
`contains`, `exact`, `regex`, `filter_data` behaves exactly as with
strategy `contains` (no failure from the unknown name), and no
`filter_data` call ever changes `current_filter_strategy`; an
empty-string strategy argument instead falls back to the handler's
current strategy. -/
theorem C10_unknown_strategy_uses_contains (cmp : Cmp) (cfg : Config)
    (h : Handler) (cols : List String) (v : List Char) (s : String)
    (hne : s ≠ "") (hunk : strategyNames.contains s = false) :
    filter_data cmp cfg h cols v (some s) =
      filter_data cmp cfg h cols v (some "contains") ∧
    (filter_data cmp cfg h cols v (some s)).2.current_filter_strategy =
      h.current_filter_strategy := by
  constructor
  · refine filter_data_strategy_congr cmp cfg h cols v ?_
    have h1 : chooseStrategyName h (some s) = "contains" := by
      simp only [chooseStrategyName, if_neg hne, hunk, Bool.false_eq_true,
        if_false]
    have h2 : chooseStrategyName h (some "contains") = "contains" := by
      simp [chooseStrategyName, strategyNames]
    rw [h1, h2]
  · exact filter_data_preserves_strategy cmp cfg h cols v (some s)

/-- C10 witness: the unknown strategy name `fuzzy` over the Department
fixture. -/
theorem C10_unknown_strategy_witness :
    filter_data cmpNone defaultConfig hDept ["Department"] "IT".toList
        (some "fuzzy") =
      filter_data cmpNone defaultConfig hDept ["Department"] "IT".toList
        (some "contains") :=
  (C10_unknown_strategy_uses_contains cmpNone defaultConfig hDept
    ["Department"] "IT".toList "fuzzy" (by decide) (by decide)).1

/-- C8 counterexample: `filter_data_batch` performs no per-condition text
validation: the whitespace-only condition `" "` (which
`validate_filter_text` rejects) is accepted, extracts the row containing
a space, and mutates the store instead of failing. -/
theorem C8_batch_accepts_blank_counterexample :
    validate_filter_text [' '] = some .invalidFilterText ∧
    (filter_data_batch cmpNone defaultConfig hSpace ["c"] [[' ']]
        "OR".toList).1 =
      .ok ([], { cols := ["c"], rows := [[("c", "a b".toList)]] }) ∧
    (filter_data_batch cmpNone defaultConfig hSpace ["c"] [[' ']]
        "OR".toList).2.dataframe ≠ hSpace.dataframe := by decide

/-- C8 (amended): single-condition `filter_data` does fail with the
invalid-input error and an unchanged store on empty or all-whitespace
filter text (given loaded data and a valid column selection);
`filter_data_batch` has no such per-condition check. -/
theorem C8_filter_data_rejects_blank_text (cmp : Cmp) (cfg : Config)
    (h : Handler) (df : Table) (cols : List String) (v : List Char)
    (strat : Option String)
    (hdf : h.dataframe = some df)
    (hcols : validate_column_selection cols (get_column_names h) = none)
    (hblank : stripL v = []) :
    filter_data cmp cfg h cols v strat = (.error .invalidFilterText, h) := by
  have htext : validate_filter_text v = some .invalidFilterText := by
    unfold validate_filter_text
    rw [hblank]
    simp
  simp only [filter_data, hdf, hcols, htext]

/-- C8 witness: the single-space condition over the Department fixture. -/
theorem C8_filter_data_rejects_blank_witness :
    filter_data cmpNone defaultConfig hDept ["Department"] [' '] none =
      (.error .invalidFilterText, hDept) :=
  C8_filter_data_rejects_blank_text cmpNone defaultConfig hDept tDept
    ["Department"] [' '] none rfl rfl (by decide)

/-- C2: an extract call — `filter_data` or `filter_data_batch` — whose
computed mask selects zero rows fails with the no-matching-data error and
returns the store exactly as it was, so a subsequent summary equals one
taken before the call. -/
theorem C2_empty_mask_is_noop (cmp : Cmp) (cfg : Config) (h : Handler)
    (df : Table) (cols : List String) (v : List Char) (strat : Option String)
    (vals : List (List Char)) (op : List Char)
    (f g : List String → List String → List Char → Row → Bool)
    (hdf : h.dataframe = some df)
    (hcols : validate_column_selection cols (get_column_names h) = none)
    (htext : validate_filter_text v = none)
    (hf : lookupStrategy cmp (chooseStrategyName h strat) = some f)
    (hempty : df.rows.filter (fun row => f df.cols cols v row) = [])
    (hvne : vals.isEmpty = false)
    (hvlen : vals.length ≤ cfg.max_filter_conditions)
    (hg : lookupStrategy cmp h.current_filter_strategy = some g)
    (hbempty : df.rows.filter
      (batchRowPred (fun val row => g df.cols cols val row) op vals) = []) :
    filter_data cmp cfg h cols v strat = (.error .emptyResult, h) ∧
    get_data_summary (filter_data cmp cfg h cols v strat).2 =
      get_data_summary h ∧
    filter_data_batch cmp cfg h cols vals op = (.error .emptyResult, h) ∧
    get_data_summary (filter_data_batch cmp cfg h cols vals op).2 =
      get_data_summary h := by
  have h1 : filter_data cmp cfg h cols v strat = (.error .emptyResult, h) := by
    simp only [filter_data, hdf, hcols, htext, hf, hempty, List.isEmpty_nil,
      if_true]
  have h2 : filter_data_batch cmp cfg h cols vals op =
      (.error .emptyResult, h) := by
    simp only [filter_data_batch, hdf, hcols, hvne, Bool.false_eq_true,
      if_false, hg]
    rw [if_neg (by omega)]
    simp only [hbempty, List.isEmpty_nil, if_true]
  exact ⟨h1, by rw [h1], h2, by rw [h2]⟩

/-- C2 witness: the unmatched condition `QQQ` over the Department fixture,
as a single filter and as a one-element OR batch. -/
theorem C2_empty_mask_is_noop_witness :
    filter_data cmpNone defaultConfig hDept ["Department"] "QQQ".toList none =
      (.error .emptyResult, hDept) ∧
    filter_data_batch cmpNone defaultConfig hDept ["Department"]
        ["QQQ".toList] "OR".toList = (.error .emptyResult, hDept) :=
  have hc := C2_empty_mask_is_noop cmpNone defaultConfig hDept tDept
    ["Department"] "QQQ".toList none ["QQQ".toList] "OR".toList
    containsFilterRow containsFilterRow rfl rfl (by decide) rfl (by decide)
    rfl (by decide) rfl (by decide)
  ⟨hc.1, hc.2.2.1⟩

/-- C3: a `filter_data_batch` call that passes validation and succeeds
extracts exactly the rows all of whose per-condition masks (produced by
the current strategy) are true under AND (fold from all-true by
intersection), and exactly those with at least one true mask under any
other operator (fold from all-false by union). -/
theorem C3_batch_AND_OR_semantics (cmp : Cmp) (cfg : Config) (h : Handler)
    (df : Table) (cols : List String) (vals : List (List Char))
    (op : List Char)
    (f : List String → List String → List Char → Row → Bool)
    (nm : List Char) (part : Table) (h2 : Handler)
    (hdf : h.dataframe = some df)
    (hcols : validate_column_selection cols (get_column_names h) = none)
    (hvne : vals.isEmpty = false)
    (hvlen : vals.length ≤ cfg.max_filter_conditions)
    (hf : lookupStrategy cmp h.current_filter_strategy = some f)
    (hok : filter_data_batch cmp cfg h cols vals op = (.ok (nm, part), h2)) :
    part.rows = df.rows.filter (fun r =>
      if toUpperL op = "AND".toList then vals.all (fun v => f df.cols cols v r)
      else vals.any (fun v => f df.cols cols v r)) := by
  simp only [filter_data_batch, hdf, hcols, hvne, Bool.false_eq_true,
    if_false, hf] at hok
  rw [if_neg (by omega)] at hok
  split at hok
  · exact absurd (congrArg (fun x => x.1) hok) (by simp)
  · have h1 : Except.ok ((sanitize_sheet_name cfg (batchConditionName op vals)),
        ({ cols := df.cols,
           rows := df.rows.filter
             (batchRowPred (fun val row => f df.cols cols val row) op vals) } :
          Table)) = Except.ok (nm, part) := congrArg (fun x => x.1) hok
    injection h1 with h1
    injection h1 with hnm hpart
    rw [← hpart]
    exact List.filter_congr fun r _ =>
      batchRowPred_eq (fun val row => f df.cols cols val row) op vals r

/-- C3 witness: OR over `IT`, `HR` on the Department fixture selects the
four rows whose department is `IT` or `HR`. -/
theorem C3_batch_AND_OR_semantics_witness :
    ({ cols := ["Department"],
       rows := [[("Department", "IT".toList)], [("Department", "HR".toList)],
                [("Department", "IT".toList)], [("Department", "IT".toList)]] } :
      Table).rows =
      tDept.rows.filter (fun r =>
        if toUpperL "OR".toList = "AND".toList then
          (["IT".toList, "HR".toList]).all
            (fun v => containsFilterRow tDept.cols ["Department"] v r)
        else
          (["IT".toList, "HR".toList]).any
            (fun v => containsFilterRow tDept.cols ["Department"] v r)) :=
  C3_batch_AND_OR_semantics cmpNone defaultConfig hDept tDept ["Department"]
    ["IT".toList, "HR".toList] "OR".toList containsFilterRow
    "IT 或 HR".toList
    { cols := ["Department"],
      rows := [[("Department", "IT".toList)], [("Department", "HR".toList)],
               [("Department", "IT".toList)], [("Department", "IT".toList)]] }
    { excel_file_path := some "data.xlsx"
      original_dataframe := some tDept
      dataframe := some { cols := ["Department"],
                          rows := [[("Department", "Finance".toList)]] }
      filtered_sheets :=
        [("IT 或 HR".toList,
          { cols := ["Department"],
            rows := [[("Department", "IT".toList)], [("Department", "HR".toList)],
                     [("Department", "IT".toList)], [("Department", "IT".toList)]] })]
      current_filter_strategy := "contains" }
    rfl rfl rfl (by decide) rfl (by decide)

theorem validate_column_selection_none_iff (cols av : List String) :
    validate_column_selection cols av = none ↔
      (cols ≠ [] ∧ ∀ c ∈ cols, av.contains c = true) := by
  constructor
  · intro hv
    unfold validate_column_selection at hv
    by_cases h0 : cols.isEmpty = true
    · rw [if_pos h0] at hv; exact absurd hv (by simp)
    · rw [if_neg h0] at hv
      by_cases h1 : (cols.any fun c => !av.contains c) = true
      · rw [if_pos h1] at hv; exact absurd hv (by simp)
      · refine ⟨fun hc => h0 (by simp [hc]), ?_⟩
        intro c hc
        by_contra hcc
        exact h1 (List.any_eq_true.mpr ⟨c, hc, by simpa using hcc⟩)
  · rintro ⟨hne, hall⟩
    unfold validate_column_selection
    rw [if_neg (fun hh => hne (List.isEmpty_iff.mp hh)), if_neg]
    intro hany
    obtain ⟨c, hc, hcc⟩ := List.any_eq_true.mp hany
    rw [hall c hc] at hcc
    exact absurd hcc (by simp)

/-- C7: given loaded data, `filter_data_batch` fails with an invalid-input
error — leaving the store unchanged — exactly when the conditions list is
empty, the selected column list is empty or names an unknown column, or
the condition count exceeds the configured maximum. -/
theorem C7_batch_invalid_input_iff (cmp : Cmp) (cfg : Config) (h : Handler)
    (df : Table) (cols : List String) (vals : List (List Char))
    (op : List Char) (hdf : h.dataframe = some df) :
    (resultInvalidInput (filter_data_batch cmp cfg h cols vals op).1 = true ↔
      (cols = [] ∨ (∃ c ∈ cols, df.cols.contains c = false) ∨ vals = [] ∨
        cfg.max_filter_conditions < vals.length)) ∧
    ((cols = [] ∨ (∃ c ∈ cols, df.cols.contains c = false) ∨ vals = [] ∨
        cfg.max_filter_conditions < vals.length) →
      (filter_data_batch cmp cfg h cols vals op).2 = h) := by
  have hav : get_column_names h = df.cols := by
    unfold get_column_names; rw [hdf]
  rcases hv : validate_column_selection cols (get_column_names h) with _ | e
  · -- column selection valid
    obtain ⟨hne, hall⟩ := (validate_column_selection_none_iff _ _).mp hv
    rw [hav] at hall
    have hno2 : ¬ ∃ c ∈ cols, df.cols.contains c = false := by
      rintro ⟨c, hc, hcc⟩
      rw [hall c hc] at hcc
      exact absurd hcc (by simp)
    by_cases hve : vals = []
    · subst hve
      have hred : filter_data_batch cmp cfg h cols [] op =
          (.error .noConditions, h) := by
        simp only [filter_data_batch, hdf, hv, List.isEmpty_nil, if_true]
      rw [hred]
      exact ⟨⟨fun _ => Or.inr (Or.inr (Or.inl rfl)), fun _ => rfl⟩,
        fun _ => rfl⟩
    · by_cases hlen : cfg.max_filter_conditions < vals.length
      · have hred : filter_data_batch cmp cfg h cols vals op =
            (.error .tooManyConditions, h) := by
          simp only [filter_data_batch, hdf, hv]
          rw [if_neg (fun hh => hve (List.isEmpty_iff.mp hh)),
            if_pos (by omega)]
        rw [hred]
        exact ⟨⟨fun _ => Or.inr (Or.inr (Or.inr hlen)), fun _ => rfl⟩,
          fun _ => rfl⟩
      · -- every invalid-input condition is absent
        have hnoRhs : ¬ (cols = [] ∨ (∃ c ∈ cols, df.cols.contains c = false) ∨
            vals = [] ∨ cfg.max_filter_conditions < vals.length) := by
          rintro (hx | hx | hx | hx)
          · exact hne hx
          · exact hno2 hx
          · exact hve hx
          · exact hlen hx
        have hnotInv : resultInvalidInput
            (filter_data_batch cmp cfg h cols vals op).1 = false := by
          simp only [filter_data_batch, hdf, hv]
          rw [if_neg (fun hh => hve (List.isEmpty_iff.mp hh)),
            if_neg (by omega)]
          rcases hl : lookupStrategy cmp h.current_filter_strategy with _ | f
          · rfl
          · dsimp only
            split
            · rfl
            · rfl
        constructor
        · rw [hnotInv]
          exact ⟨fun hx => absurd hx (by simp), fun hx => absurd hx hnoRhs⟩
        · exact fun hx => absurd hx hnoRhs
  · -- column selection invalid
    have hred : filter_data_batch cmp cfg h cols vals op = (.error e, h) := by
      simp only [filter_data_batch, hdf, hv]
    have hinv : e.isInvalidInput = true := by
      unfold validate_column_selection at hv
      by_cases h0 : cols.isEmpty = true
      · rw [if_pos h0] at hv
        injection hv with hv2
        rw [← hv2]; rfl
      · rw [if_neg h0] at hv
        by_cases h1 : (cols.any fun c => !(get_column_names h).contains c) = true
        · rw [if_pos h1] at hv
          injection hv with hv2
          rw [← hv2]; rfl
        · rw [if_neg h1] at hv
          exact absurd hv (by simp)
    have hrhs : cols = [] ∨ (∃ c ∈ cols, df.cols.contains c = false) ∨
        vals = [] ∨ cfg.max_filter_conditions < vals.length := by
      unfold validate_column_selection at hv
      by_cases h0 : cols.isEmpty = true
      · exact Or.inl (List.isEmpty_iff.mp h0)
      · rw [if_neg h0] at hv
        by_cases h1 : (cols.any fun c => !(get_column_names h).contains c) = true
        · obtain ⟨c, hc, hcc⟩ := List.any_eq_true.mp h1
          rw [hav] at hcc
          exact Or.inr (Or.inl ⟨c, hc, by simpa using hcc⟩)
        · rw [if_neg h1] at hv
          exact absurd hv (by simp)
    rw [hred]
    exact ⟨⟨fun _ => hrhs, fun _ => by simp [resultInvalidInput, hinv]⟩,
      fun _ => rfl⟩

/-- C7 witness: an empty conditions list over the Department fixture is
reported as invalid input and leaves the handler untouched. -/
theorem C7_batch_invalid_input_witness :
    resultInvalidInput (filter_data_batch cmpNone defaultConfig hDept
        ["Department"] [] "AND".toList).1 = true ∧
    (filter_data_batch cmpNone defaultConfig hDept
        ["Department"] [] "AND".toList).2 = hDept :=
  have hc := C7_batch_invalid_input_iff cmpNone defaultConfig hDept tDept
    ["Department"] [] "AND".toList rfl
  ⟨hc.1.mpr (Or.inr (Or.inr (Or.inl rfl))),
   hc.2 (Or.inr (Or.inr (Or.inl rfl)))⟩

theorem rowInvariant_extract {h : Handler} {df rest filtered : Table}
    {k : List Char} (hdf : h.dataframe = some df) (hInv : rowInvariant h)
    (hfresh : ∀ q ∈ h.filtered_sheets, q.1 ≠ k)
    (hsum : filtered.rows.length + rest.rows.length = df.rows.length) :
    rowInvariant { h with
      filtered_sheets := updateSheet h.filtered_sheets k filtered,
      dataframe := some rest } := by
  unfold rowInvariant get_data_summary at hInv ⊢
  rw [hdf] at hInv
  rw [updateSheet_of_fresh filtered hfresh, List.map_append, List.sum_append]
  simp only [List.map_cons, List.map_nil, List.sum_cons, List.sum_nil]
  dsimp only at hInv ⊢
  omega

/-- C1 counterexample: over a two-row table whose cell texts `b/1` and
`b\2` make the conditions `b/` and `b\` sanitize to the same sheet name
`b_`, two successful extracts after a load overwrite the first partition,
after which `current_rows + total_filtered_rows ≠ original_rows`. -/
theorem C1_row_invariant_counterexample :
    (filter_data cmpNone defaultConfig hPair ["c"] "b/".toList none).1 =
      .ok { cols := ["c"], rows := [[("c", "b/1".toList)]] } ∧
    (filter_data cmpNone defaultConfig hPairMid ["c"] "b\\".toList none).1 =
      .ok { cols := ["c"], rows := [[("c", "b\\2".toList)]] } ∧
    (get_data_summary hPairEnd).current_rows +
        (get_data_summary hPairEnd).total_filtered_rows ≠
      (get_data_summary hPairEnd).original_rows := by decide

/-- C1 (amended): `current_rows + total_filtered_rows = original_rows` is
preserved by every `filter_data` and `filter_data_batch` call whose
sanitized partition name does not collide with a stored partition key
(on a collision the older partition is overwritten and its rows drop out
of the total), and it holds after `reset_data` whenever a snapshot was
loaded. -/
theorem C1_row_invariant_preserved (cmp : Cmp) (cfg : Config) (h : Handler)
    (cols : List String) (v : List Char) (strat : Option String)
    (vals : List (List Char)) (op : List Char) (odf : Table) :
    (rowInvariant h →
      (∀ q ∈ h.filtered_sheets, q.1 ≠ sanitize_sheet_name cfg v) →
      rowInvariant (filter_data cmp cfg h cols v strat).2) ∧
    (rowInvariant h →
      (∀ q ∈ h.filtered_sheets,
        q.1 ≠ sanitize_sheet_name cfg (batchConditionName op vals)) →
      rowInvariant (filter_data_batch cmp cfg h cols vals op).2) ∧
    (h.original_dataframe = some odf → rowInvariant (reset_data h).2) := by
  refine ⟨?_, ?_, ?_⟩
  · intro hInv hFresh
    unfold filter_data
    split
    · exact hInv
    · next df hdf =>
      split
      · exact hInv
      · split
        · exact hInv
        · split
          · exact hInv
          · next f hf =>
            dsimp only
            split
            · exact hInv
            · exact rowInvariant_extract hdf hInv hFresh
                (length_filter_add_length_filter_not _ df.rows)
  · intro hInv hFresh
    unfold filter_data_batch
    split
    · exact hInv
    · next df hdf =>
      split
      · exact hInv
      · split
        · exact hInv
        · split
          · exact hInv
          · split
            · exact hInv
            · next f hf =>
              dsimp only
              split
              · exact hInv
              · exact rowInvariant_extract hdf hInv hFresh
                  (length_filter_add_length_filter_not _ df.rows)
  · intro hodf
    unfold reset_data
    rw [hodf]
    unfold rowInvariant get_data_summary
    dsimp only
    simp

/-- C1 witness: extracting `IT` from the freshly loaded Department
fixture preserves the invariant. -/
theorem C1_row_invariant_preserved_witness :
    rowInvariant (filter_data cmpNone defaultConfig hDept ["Department"]
      "IT".toList none).2 :=
  (C1_row_invariant_preserved cmpNone defaultConfig hDept ["Department"]
      "IT".toList none [] "AND".toList tDept).1
    (by unfold rowInvariant; decide)
    (by intro q hq; simp [hDept] at hq)
